import Mathlib

/-!
# Verification of the lightedit2 style-matching and preset-encoding core

Shallow embedding of `src/backend/preset_generator.py` and
`src/backend/main.py` (the style-description-to-parameter matcher, the
XMP preset encoders, and the `slugify` utility), together with theorems
settling the specification's claims about them.

Python dictionaries with string keys are modelled as insertion-ordered
association lists `List (String × ℚ)`; Python floats are modelled as
rationals `ℚ` (every IEEE double is a dyadic rational, and none of the
claims depends on rounding of the arithmetic itself); Python exceptions
are modelled with `Except`.
-/

namespace LightEdit

/-! ## String primitives

`lowerChar`/`strLower` model Python's `str.lower()` on ASCII (all
recognized keywords are ASCII; a non-ASCII cased letter lowercases to a
non-ASCII letter in Python, which both the keyword substring tests and
the slug character class treat exactly like the original).
`strIn sub s` models the Python expression `sub in s` (contiguous
substring test). -/

def lowerChar (c : Char) : Char :=
  if 65 ≤ c.toNat ∧ c.toNat ≤ 90 then Char.ofNat (c.toNat + 32) else c

def strLower (s : String) : String := ⟨s.data.map lowerChar⟩

/-- `listContains n h = true` iff `n` occurs as a contiguous sublist of `h`. -/
def listContains (n : List Char) : List Char → Bool
  | [] => n.isEmpty
  | c :: t => n.isPrefixOf (c :: t) || listContains n t

/-- Python's `sub in s` substring test. -/
def strIn (sub s : String) : Bool := listContains sub.data s.data

/-! ## `PRESET_TEMPLATES` (`preset_generator.py`, lines 5-71)

One association list per style, in the source's key order. -/

def moodyTpl : List (String × ℚ) :=
  [("Exposure", -0.5), ("Contrast", 0.3), ("Highlights", -0.4), ("Shadows", -0.2),
   ("Blacks", -0.3), ("Clarity", 0.2), ("Vibrance", -0.1), ("Temperature", -0.2),
   ("Tint", 0.0), ("Saturation", -0.1), ("Whites", 0.0)]

def vintageTpl : List (String × ℚ) :=
  [("Exposure", 0.2), ("Contrast", 0.4), ("Highlights", -0.3), ("Shadows", 0.2),
   ("Clarity", 0.3), ("Vibrance", -0.2), ("Saturation", -0.1), ("Temperature", 0.3),
   ("Tint", 0.1), ("Whites", 0.1), ("Blacks", 0.0)]

def dramaticTpl : List (String × ℚ) :=
  [("Exposure", 0.1), ("Contrast", 0.6), ("Highlights", -0.4), ("Shadows", -0.4),
   ("Whites", 0.2), ("Blacks", -0.2), ("Clarity", 0.4), ("Vibrance", 0.2),
   ("Temperature", 0.0), ("Tint", 0.0), ("Saturation", 0.1)]

def softTpl : List (String × ℚ) :=
  [("Exposure", 0.3), ("Contrast", -0.2), ("Highlights", -0.3), ("Shadows", 0.3),
   ("Clarity", -0.2), ("Vibrance", 0.1), ("Temperature", 0.1), ("Tint", 0.0),
   ("Saturation", 0.0), ("Whites", 0.0), ("Blacks", 0.0)]

def cinematicTpl : List (String × ℚ) :=
  [("Exposure", 0.1), ("Contrast", 0.4), ("Highlights", -0.3), ("Shadows", 0.2),
   ("Clarity", 0.2), ("Vibrance", 0.1), ("Temperature", -0.1), ("Tint", 0.0),
   ("Saturation", 0.0), ("Whites", 0.1), ("Blacks", -0.1)]

def PRESET_TEMPLATES : List (String × List (String × ℚ)) :=
  [("moody", moodyTpl), ("vintage", vintageTpl), ("dramatic", dramaticTpl),
   ("soft", softTpl), ("cinematic", cinematicTpl)]

/-- The initial `matched_settings` dictionary of `match_prompt_to_preset`
(`preset_generator.py`, lines 79-91), which is also the all-zero default
result. -/
def coreDefaults : List (String × ℚ) :=
  [("Exposure", 0.0), ("Contrast", 0.0), ("Highlights", 0.0), ("Shadows", 0.0),
   ("Whites", 0.0), ("Blacks", 0.0), ("Clarity", 0.0), ("Vibrance", 0.0),
   ("Saturation", 0.0), ("Temperature", 0.0), ("Tint", 0.0)]

/-- The eleven core parameter names, in the key order of `matched_settings`. -/
def coreKeys : List String := coreDefaults.map Prod.fst

/-- Dictionary read `d[k]` with a numeric value.  Every template carries all
eleven keys, so on the data this is applied to the `KeyError` branch of the
Python subscript never fires; the `0` default is therefore never observable. -/
def lookupD (d : List (String × ℚ)) (k : String) : ℚ := (d.lookup k).getD 0

/-- The loop body `for key in matched_settings: matched_settings[key] += settings[key]`
(`preset_generator.py`, lines 101-102): every key of the accumulator is bumped
by the template's value for that key. -/
def addTemplate (acc tpl : List (String × ℚ)) : List (String × ℚ) :=
  acc.map fun kv => (kv.1, kv.2 + lookupD tpl kv.1)

/-- `match_prompt_to_preset` (`preset_generator.py`, lines 73-109):
lower-case the prompt, add up every template whose style name occurs as a
substring, count the matches, and divide each accumulated value by the
match count when that count is positive. -/
def match_prompt_to_preset (prompt : String) : List (String × ℚ) :=
  let p := strLower prompt
  let r := PRESET_TEMPLATES.foldl
    (fun (st : List (String × ℚ) × Nat) t =>
      if strIn t.1 p then (addTemplate st.1 t.2, st.2 + 1) else st)
    (coreDefaults, 0)
  if r.2 > 0 then r.1.map (fun kv => (kv.1, kv.2 / (r.2 : ℚ))) else r.1

/-! ## `generate_xmp_preset` (`main.py`, lines 133-299)

The first-match-wins matcher.  Only the `"Basic"` section of the returned
nested preset dictionary is modelled: it is the only section read by
`create_xmp_file` and the only one any claim mentions (the `ToneCurve`,
`HSL`, `SplitToning` and `Detail` sections are written but never consulted
by the encoder). -/

/-- The base `preset["Basic"]` dictionary (`main.py`, lines 137-149). -/
def baseBasic : List (String × ℚ) :=
  [("Exposure", 0.0), ("Contrast", 0), ("Highlights", 0), ("Shadows", 0),
   ("Whites", 0), ("Blacks", 0), ("Clarity", 0), ("Vibrance", 0),
   ("Saturation", 0), ("Temperature", 0), ("Tint", 0)]

/-- Python `dict.update` restricted to the use in `generate_xmp_preset`:
every key of `upd` already occurs in `base`, so updating replaces values in
place and never appends a new key. -/
def dictUpdate (base upd : List (String × ℚ)) : List (String × ℚ) :=
  base.map fun kv =>
    match upd.lookup kv.1 with
    | some v => (kv.1, v)
    | none => kv

def cinematicUpd : List (String × ℚ) :=
  [("Contrast", 15), ("Highlights", -20), ("Shadows", 10), ("Clarity", 10),
   ("Vibrance", 5), ("Temperature", 5)]

def vintageUpd : List (String × ℚ) :=
  [("Exposure", 0.5), ("Contrast", 10), ("Highlights", -15), ("Shadows", 15),
   ("Clarity", -5), ("Vibrance", -10), ("Saturation", -15), ("Temperature", 10)]

def dramaticUpd : List (String × ℚ) :=
  [("Exposure", -0.5), ("Contrast", 25), ("Highlights", -30), ("Shadows", 20),
   ("Clarity", 15), ("Vibrance", 10), ("Temperature", -5)]

def dreamyUpd : List (String × ℚ) :=
  [("Exposure", 0.5), ("Contrast", -10), ("Highlights", -20), ("Shadows", 15),
   ("Clarity", -10), ("Vibrance", 5), ("Temperature", 5)]

/-- `generate_xmp_preset` (`main.py`, lines 133-299), `"Basic"` section:
an `if` / `elif` chain over the lower-cased description, so the first
matching keyword wins; note the recognized keywords are `cinematic`,
`vintage`, `dramatic` and `dreamy`. -/
def generate_xmp_preset (style_description : String) : List (String × ℚ) :=
  let s := strLower style_description
  if strIn "cinematic" s then dictUpdate baseBasic cinematicUpd
  else if strIn "vintage" s then dictUpdate baseBasic vintageUpd
  else if strIn "dramatic" s then dictUpdate baseBasic dramaticUpd
  else if strIn "dreamy" s then dictUpdate baseBasic dreamyUpd
  else baseBasic

/-! ## Lemmas about the averaging matcher -/

theorem addTemplate_keys (acc tpl : List (String × ℚ)) :
    (addTemplate acc tpl).map Prod.fst = acc.map Prod.fst := by
  unfold addTemplate
  rw [List.map_map]
  have : (Prod.fst ∘ fun kv : String × ℚ => (kv.1, kv.2 + lookupD tpl kv.1)) = Prod.fst := by
    funext kv; rfl
  rw [this]

theorem foldl_match_keys (p : String) (ts : List (String × List (String × ℚ))) :
    ∀ (acc : List (String × ℚ)) (c : Nat),
      ((ts.foldl
        (fun (st : List (String × ℚ) × Nat) t =>
          if strIn t.1 p then (addTemplate st.1 t.2, st.2 + 1) else st)
        (acc, c)).1).map Prod.fst = acc.map Prod.fst := by
  induction ts with
  | nil => intro acc c; rfl
  | cons t ts ih =>
    intro acc c
    rw [List.foldl_cons]
    cases h : strIn t.1 p with
    | false => simp only [h, Bool.false_eq_true, if_false]; exact ih acc c
    | true => simp only [h, if_true]; rw [ih, addTemplate_keys]

/-- The result of `match_prompt_to_preset` always has exactly the eleven core
keys, in the fixed order of the initial `matched_settings` dictionary. -/
theorem match_prompt_keys (prompt : String) :
    (match_prompt_to_preset prompt).map Prod.fst = coreKeys := by
  unfold match_prompt_to_preset
  set p := strLower prompt
  set r := PRESET_TEMPLATES.foldl
    (fun (st : List (String × ℚ) × Nat) t =>
      if strIn t.1 p then (addTemplate st.1 t.2, st.2 + 1) else st)
    (coreDefaults, 0) with hr
  have hkeys : r.1.map Prod.fst = coreKeys := by
    rw [hr]; exact foldl_match_keys p PRESET_TEMPLATES coreDefaults 0
  by_cases h : r.2 > 0
  · simp only [h, if_true]
    rw [List.map_map]
    have : (Prod.fst ∘ fun kv : String × ℚ => (kv.1, kv.2 / (r.2 : ℚ))) = Prod.fst := by
      funext kv; rfl
    rw [this, hkeys]
  · simp only [h, if_false]
    exact hkeys

theorem lookup_isSome_of_mem_keys {l : List (String × ℚ)} {k : String}
    (h : k ∈ l.map Prod.fst) : (l.lookup k).isSome = true := by
  induction l with
  | nil => simp at h
  | cons kv t ih =>
    rw [List.map_cons, List.mem_cons] at h
    by_cases hk : k = kv.1
    · simp [List.lookup, hk]
    · rcases h with h | h
      · exact absurd h hk
      · simpa [List.lookup, beq_false_of_ne hk] using ih h

/-! ## Claim theorems about the matchers -/

/-- **C3.** `match("a cinematic and moody portrait")` under the
average-all-matches policy (`match_prompt_to_preset`) returns, for every
parameter, the arithmetic mean of the `cinematic` and `moody` templates —
in particular `Exposure = (0.1 + (-0.5))/2 = -0.2` and
`Contrast = (0.4 + 0.3)/2 = 0.35` — and under the first-match-wins policy
with `cinematic` prioritized first (`generate_xmp_preset`) it returns
exactly the cinematic template of that lineage. -/
theorem c3_cinematic_moody_scenario :
    match_prompt_to_preset "a cinematic and moody portrait" =
      [("Exposure", ((-0.5 : ℚ) + 0.1) / 2), ("Contrast", ((0.3 : ℚ) + 0.4) / 2),
       ("Highlights", ((-0.4 : ℚ) + -0.3) / 2), ("Shadows", ((-0.2 : ℚ) + 0.2) / 2),
       ("Whites", ((0.0 : ℚ) + 0.1) / 2), ("Blacks", ((-0.3 : ℚ) + -0.1) / 2),
       ("Clarity", ((0.2 : ℚ) + 0.2) / 2), ("Vibrance", ((-0.1 : ℚ) + 0.1) / 2),
       ("Saturation", ((-0.1 : ℚ) + 0.0) / 2), ("Temperature", ((-0.2 : ℚ) + -0.1) / 2),
       ("Tint", ((0.0 : ℚ) + 0.0) / 2)] ∧
    (match_prompt_to_preset "a cinematic and moody portrait").lookup "Exposure"
      = some (-0.2) ∧
    (match_prompt_to_preset "a cinematic and moody portrait").lookup "Contrast"
      = some 0.35 ∧
    generate_xmp_preset "a cinematic and moody portrait" =
      [("Exposure", 0), ("Contrast", 15), ("Highlights", -20), ("Shadows", 10),
       ("Whites", 0), ("Blacks", 0), ("Clarity", 10), ("Vibrance", 5),
       ("Saturation", 0), ("Temperature", 5), ("Tint", 0)] ∧
    generate_xmp_preset "a cinematic and moody portrait" =
      dictUpdate baseBasic cinematicUpd := by
  refine ⟨?_, ?_, ?_, ?_, ?_⟩ <;> with_unfolding_all decide

/-- **C5.** A description containing none of the recognized keywords —
including the empty string — yields the all-zero default parameters. -/
theorem c5_no_keyword_default (prompt : String)
    (h : ∀ t ∈ PRESET_TEMPLATES, strIn t.1 (strLower prompt) = false) :
    match_prompt_to_preset prompt = coreDefaults := by
  have h1 := h ("moody", moodyTpl) (by simp [PRESET_TEMPLATES])
  have h2 := h ("vintage", vintageTpl) (by simp [PRESET_TEMPLATES])
  have h3 := h ("dramatic", dramaticTpl) (by simp [PRESET_TEMPLATES])
  have h4 := h ("soft", softTpl) (by simp [PRESET_TEMPLATES])
  have h5 := h ("cinematic", cinematicTpl) (by simp [PRESET_TEMPLATES])
  simp only [match_prompt_to_preset, PRESET_TEMPLATES, List.foldl_cons, List.foldl_nil,
    h1, h2, h3, h4, h5, Bool.false_eq_true, if_false, gt_iff_lt, lt_self_iff_false]

/-- Closed instance of C5 at the empty prompt. -/
theorem c5_no_keyword_default_witness : match_prompt_to_preset "" = coreDefaults :=
  c5_no_keyword_default "" (by with_unfolding_all decide)

/-- **C4.** A description containing exactly one recognized keyword (and no
other recognized keyword as a substring) is mapped to exactly that keyword's
template values, unchanged: the result agrees with the template on all eleven
core parameters, and has exactly the eleven core keys. -/
theorem c4_single_keyword_exact (prompt name : String) (tpl : List (String × ℚ))
    (hmem : (name, tpl) ∈ PRESET_TEMPLATES)
    (hhit : strIn name (strLower prompt) = true)
    (hothers : ∀ q ∈ PRESET_TEMPLATES, q.1 ≠ name → strIn q.1 (strLower prompt) = false) :
    (∀ k ∈ coreKeys, (match_prompt_to_preset prompt).lookup k = tpl.lookup k) ∧
    (match_prompt_to_preset prompt).map Prod.fst = coreKeys := by
  simp only [PRESET_TEMPLATES, List.mem_cons, List.not_mem_nil, or_false,
    Prod.mk.injEq] at hmem
  rcases hmem with ⟨rfl, rfl⟩ | ⟨rfl, rfl⟩ | ⟨rfl, rfl⟩ | ⟨rfl, rfl⟩ | ⟨rfl, rfl⟩
  · have hv := hothers ("vintage", vintageTpl) (by simp [PRESET_TEMPLATES]) (by decide)
    have hd := hothers ("dramatic", dramaticTpl) (by simp [PRESET_TEMPLATES]) (by decide)
    have hs := hothers ("soft", softTpl) (by simp [PRESET_TEMPLATES]) (by decide)
    have hc := hothers ("cinematic", cinematicTpl) (by simp [PRESET_TEMPLATES]) (by decide)
    simp only [match_prompt_to_preset, PRESET_TEMPLATES, List.foldl_cons, List.foldl_nil,
      hhit, hv, hd, hs, hc, if_true, Bool.false_eq_true, if_false]
    with_unfolding_all decide
  · have hm := hothers ("moody", moodyTpl) (by simp [PRESET_TEMPLATES]) (by decide)
    have hd := hothers ("dramatic", dramaticTpl) (by simp [PRESET_TEMPLATES]) (by decide)
    have hs := hothers ("soft", softTpl) (by simp [PRESET_TEMPLATES]) (by decide)
    have hc := hothers ("cinematic", cinematicTpl) (by simp [PRESET_TEMPLATES]) (by decide)
    simp only [match_prompt_to_preset, PRESET_TEMPLATES, List.foldl_cons, List.foldl_nil,
      hhit, hm, hd, hs, hc, if_true, Bool.false_eq_true, if_false]
    with_unfolding_all decide
  · have hm := hothers ("moody", moodyTpl) (by simp [PRESET_TEMPLATES]) (by decide)
    have hv := hothers ("vintage", vintageTpl) (by simp [PRESET_TEMPLATES]) (by decide)
    have hs := hothers ("soft", softTpl) (by simp [PRESET_TEMPLATES]) (by decide)
    have hc := hothers ("cinematic", cinematicTpl) (by simp [PRESET_TEMPLATES]) (by decide)
    simp only [match_prompt_to_preset, PRESET_TEMPLATES, List.foldl_cons, List.foldl_nil,
      hhit, hm, hv, hs, hc, if_true, Bool.false_eq_true, if_false]
    with_unfolding_all decide
  · have hm := hothers ("moody", moodyTpl) (by simp [PRESET_TEMPLATES]) (by decide)
    have hv := hothers ("vintage", vintageTpl) (by simp [PRESET_TEMPLATES]) (by decide)
    have hd := hothers ("dramatic", dramaticTpl) (by simp [PRESET_TEMPLATES]) (by decide)
    have hc := hothers ("cinematic", cinematicTpl) (by simp [PRESET_TEMPLATES]) (by decide)
    simp only [match_prompt_to_preset, PRESET_TEMPLATES, List.foldl_cons, List.foldl_nil,
      hhit, hm, hv, hd, hc, if_true, Bool.false_eq_true, if_false]
    with_unfolding_all decide
  · have hm := hothers ("moody", moodyTpl) (by simp [PRESET_TEMPLATES]) (by decide)
    have hv := hothers ("vintage", vintageTpl) (by simp [PRESET_TEMPLATES]) (by decide)
    have hd := hothers ("dramatic", dramaticTpl) (by simp [PRESET_TEMPLATES]) (by decide)
    have hs := hothers ("soft", softTpl) (by simp [PRESET_TEMPLATES]) (by decide)
    simp only [match_prompt_to_preset, PRESET_TEMPLATES, List.foldl_cons, List.foldl_nil,
      hhit, hm, hv, hd, hs, if_true, Bool.false_eq_true, if_false]
    with_unfolding_all decide

/-- Closed instance of C4: the prompt `"vintage film"` contains exactly the
keyword `vintage`, and the matcher returns the vintage template's Exposure. -/
theorem c4_single_keyword_exact_witness :
    (match_prompt_to_preset "vintage film").lookup "Exposure" = vintageTpl.lookup "Exposure" :=
  (c4_single_keyword_exact "vintage film" "vintage" vintageTpl
    (by simp [PRESET_TEMPLATES])
    (by with_unfolding_all decide)
    (by with_unfolding_all decide)).1 "Exposure" (by with_unfolding_all decide)

/-- Counterexample to **C6**: the averaging matcher has no keyword synonyms;
`"dark"` is not recognized while `"moody"` is, so the two prompts map to
different parameter sets. -/
theorem c6_counterexample :
    match_prompt_to_preset "dark" ≠ match_prompt_to_preset "moody" := by
  with_unfolding_all decide

/-- **C6 (amended).** The averaging matcher (`match_prompt_to_preset`)
recognizes exactly the keywords `cinematic`, `vintage`, `dramatic`, `moody`
and `soft`, with no synonyms: `dark` and `dreamy` are unrecognized there and
yield the all-zero default.  The first-match-wins matcher
(`generate_xmp_preset`) recognizes `cinematic`, `vintage`, `dramatic` and
`dreamy`, so `moody`, `dark` and `soft` yield its base preset. -/
theorem c6_amended_no_synonyms :
    match_prompt_to_preset "dark" = coreDefaults ∧
    match_prompt_to_preset "dreamy" = coreDefaults ∧
    match_prompt_to_preset "moody" =
      [("Exposure", (-0.5 : ℚ)), ("Contrast", 0.3), ("Highlights", -0.4),
       ("Shadows", -0.2), ("Whites", 0.0), ("Blacks", -0.3), ("Clarity", 0.2),
       ("Vibrance", -0.1), ("Saturation", -0.1), ("Temperature", -0.2), ("Tint", 0.0)] ∧
    match_prompt_to_preset "soft" =
      [("Exposure", (0.3 : ℚ)), ("Contrast", -0.2), ("Highlights", -0.3),
       ("Shadows", 0.3), ("Whites", 0.0), ("Blacks", 0.0), ("Clarity", -0.2),
       ("Vibrance", 0.1), ("Saturation", 0.0), ("Temperature", 0.1), ("Tint", 0.0)] ∧
    generate_xmp_preset "moody" = baseBasic ∧
    generate_xmp_preset "dark" = baseBasic ∧
    generate_xmp_preset "soft" = baseBasic ∧
    generate_xmp_preset "dreamy" = dictUpdate baseBasic dreamyUpd := by
  refine ⟨?_, ?_, ?_, ?_, ?_, ?_, ?_, ?_⟩ <;> with_unfolding_all decide

/-- **C7.** The averaging matcher is total: for every input text the result
carries exactly the eleven core parameter keys, each bound to a value, so the
encoder never faces a missing key. -/
theorem c7_matcher_total (prompt : String) :
    (match_prompt_to_preset prompt).map Prod.fst = coreKeys ∧
    ∀ k ∈ coreKeys, ((match_prompt_to_preset prompt).lookup k).isSome = true := by
  refine ⟨match_prompt_keys prompt, fun k hk => ?_⟩
  apply lookup_isSome_of_mem_keys
  rw [match_prompt_keys prompt]
  exact hk

/-- Closed instance of C7 at a non-matching prompt and the `Tint` key. -/
theorem c7_matcher_total_witness :
    ((match_prompt_to_preset "ocean sunset").lookup "Tint").isSome = true :=
  (c7_matcher_total "ocean sunset").2 "Tint" (by with_unfolding_all decide)

/-! ## `slugify` (`main.py`, lines 301-304)

`text.lower()`, then `re.sub(r'[^a-z0-9]+', '-', text)` — every maximal run
of characters outside `[a-z0-9]` becomes a single hyphen — then
`text.strip('-')`. -/

/-- The character class `[a-z0-9]`. -/
def slugChar (c : Char) : Bool :=
  (decide (97 ≤ c.toNat) && decide (c.toNat ≤ 122)) ||
  (decide (48 ≤ c.toNat) && decide (c.toNat ≤ 57))

/-- `re.sub(r'[^a-z0-9]+', '-', text)` as a left-to-right scan; the flag
records whether we are inside a run of excluded characters that has already
emitted its hyphen. -/
def subAux : Bool → List Char → List Char
  | _, [] => []
  | inRun, c :: cs =>
    if slugChar c then c :: subAux false cs
    else if inRun then subAux true cs
    else '-' :: subAux true cs

/-- `text.strip('-')`: remove every leading and trailing hyphen. -/
def stripDashes (cs : List Char) : List Char :=
  ((cs.dropWhile (· == '-')).reverse.dropWhile (· == '-')).reverse

def slugifyL (cs : List Char) : List Char :=
  stripDashes (subAux false (cs.map lowerChar))

def slugify (s : String) : String := ⟨slugifyL s.data⟩

/-! ### Lemmas about `slugify` -/

theorem slugChar_ne_dash {c : Char} (h : slugChar c = true) : c ≠ '-' := by
  intro hc; subst hc; exact absurd h (by decide)

theorem subAux_all (b : Bool) (cs : List Char) :
    (subAux b cs).all (fun c => slugChar c || c == '-') = true := by
  induction cs generalizing b with
  | nil => rfl
  | cons c cs ih =>
    unfold subAux
    by_cases h : slugChar c = true
    · simp [h, ih false]
    · cases b with
      | true => simp [h, ih true]
      | false => simp [h, ih true]

theorem subAux_true_head (cs : List Char) : (subAux true cs).head? ≠ some '-' := by
  induction cs with
  | nil => simp [subAux]
  | cons c cs ih =>
    unfold subAux
    by_cases h : slugChar c = true
    · simp only [h, if_true, List.head?_cons]
      intro hc
      exact slugChar_ne_dash h (Option.some.inj hc)
    · simpa [h] using ih

/-- No two consecutive hyphens occur in the list. -/
def noDoubleDash : List Char → Bool
  | [] => true
  | [_] => true
  | a :: b :: t => !(a == '-' && b == '-') && noDoubleDash (b :: t)

theorem ndd_cons_eq (c : Char) (l : List Char) :
    noDoubleDash (c :: l) =
      (!(c == '-' && l.head? == some '-') && noDoubleDash l) := by
  cases l with
  | nil => simp [noDoubleDash]
  | cons b t => simp [noDoubleDash]

theorem subAux_ndd (b : Bool) (cs : List Char) :
    noDoubleDash (subAux b cs) = true := by
  induction cs generalizing b with
  | nil => rfl
  | cons c cs ih =>
    unfold subAux
    by_cases h : slugChar c = true
    · rw [if_pos h, ndd_cons_eq]
      have hni : (c == '-') = false := beq_eq_false_iff_ne.mpr (slugChar_ne_dash h)
      simp [hni, ih false]
    · cases b with
      | true => simpa [h] using ih true
      | false =>
        rw [if_neg h, if_neg (by simp), ndd_cons_eq]
        have hh : ((subAux true cs).head? == some '-') = false := by
          rcases hhead : (subAux true cs).head? with _ | a
          · rfl
          · have := subAux_true_head cs
            rw [hhead] at this
            have : a ≠ '-' := fun hc => this (by rw [hc])
            simp [this]
        simp [hh, ih true]

theorem ndd_tail {c : Char} {l : List Char} (h : noDoubleDash (c :: l) = true) :
    noDoubleDash l = true := by
  rw [ndd_cons_eq, Bool.and_eq_true] at h
  exact h.2

theorem all_dropWhile {P q : Char → Bool} {l : List Char} (h : l.all P = true) :
    (l.dropWhile q).all P = true := by
  induction l with
  | nil => rfl
  | cons c t ih =>
    rw [List.all_cons, Bool.and_eq_true] at h
    rw [List.dropWhile_cons]
    by_cases hq : q c = true
    · simp only [hq, if_true]; exact ih h.2
    · simp [hq, h.1, h.2]

theorem ndd_dropWhile {q : Char → Bool} :
    ∀ {l : List Char}, noDoubleDash l = true → noDoubleDash (l.dropWhile q) = true := by
  intro l
  induction l with
  | nil => exact fun h => h
  | cons c t ih =>
    intro h
    rw [List.dropWhile_cons]
    by_cases hq : q c = true
    · simp only [hq, if_true]; exact ih (ndd_tail h)
    · simp only [hq, if_false]; exact h

theorem ndd_snoc (xs : List Char) (a : Char) :
    noDoubleDash (xs ++ [a]) =
      (noDoubleDash xs && !(xs.getLast? == some '-' && a == '-')) := by
  induction xs with
  | nil => simp [noDoubleDash]
  | cons x xs ih =>
    cases xs with
    | nil => simp [noDoubleDash]
    | cons y ys =>
      rw [List.cons_append, ndd_cons_eq, ih, ndd_cons_eq (l := y :: ys),
        List.getLast?_cons_cons]
      cases hx : (x == '-') <;> cases hy : ((y :: ys ++ [a]).head? == some '-') <;>
        simp_all [Bool.and_assoc]

theorem ndd_reverse (l : List Char) : noDoubleDash l.reverse = noDoubleDash l := by
  induction l with
  | nil => rfl
  | cons c t ih =>
    rw [List.reverse_cons, ndd_snoc, ih, List.getLast?_reverse, ndd_cons_eq]
    cases hc : (c == '-') <;> cases hh : (t.head? == some '-') <;>
      cases hn : noDoubleDash t <;> simp_all

theorem head?_dropWhile_dash_ne (l : List Char) :
    (l.dropWhile (· == '-')).head? ≠ some '-' := by
  induction l with
  | nil => simp
  | cons c t ih =>
    rw [List.dropWhile_cons]
    by_cases hc : (c == '-') = true
    · simp only [hc, if_true]; exact ih
    · simp only [hc, if_false, List.head?_cons]
      intro h
      exact hc (by rw [Option.some.inj h]; rfl)

theorem dropWhile_dash_of_head {l : List Char} (h : l.head? ≠ some '-') :
    l.dropWhile (· == '-') = l := by
  cases l with
  | nil => rfl
  | cons c t =>
    rw [List.head?_cons] at h
    have hc : (c == '-') = false := by
      cases hc : (c == '-') with
      | false => rfl
      | true => exact absurd (by rw [eq_of_beq hc]) h
    rw [List.dropWhile_cons, hc]
    simp

theorem stripDashes_head (l : List Char) : (stripDashes l).head? ≠ some '-' := by
  unfold stripDashes
  set A := l.dropWhile (· == '-') with hA
  set B := A.reverse.dropWhile (· == '-') with hB
  have hpre : B.reverse <+: A := by
    apply List.reverse_suffix.mp
    rw [List.reverse_reverse, hB, hA]
    exact List.dropWhile_suffix _
  obtain ⟨t, ht⟩ := hpre
  cases hBr : B.reverse with
  | nil => simp
  | cons a u =>
    rw [hBr] at ht
    have hAhead : A.head? = some a := by rw [← ht]; rfl
    rw [List.head?_cons]
    intro hcontra
    have ha : a = '-' := Option.some.inj hcontra
    rw [ha] at hAhead
    exact head?_dropWhile_dash_ne l hAhead

theorem stripDashes_getLast (l : List Char) : (stripDashes l).getLast? ≠ some '-' := by
  unfold stripDashes
  rw [List.getLast?_reverse]
  exact head?_dropWhile_dash_ne _

theorem stripDashes_all {P : Char → Bool} {l : List Char} (h : l.all P = true) :
    (stripDashes l).all P = true := by
  unfold stripDashes
  rw [List.all_reverse]
  exact all_dropWhile (by rw [List.all_reverse]; exact all_dropWhile h)

theorem stripDashes_ndd {l : List Char} (h : noDoubleDash l = true) :
    noDoubleDash (stripDashes l) = true := by
  unfold stripDashes
  rw [ndd_reverse]
  exact ndd_dropWhile (by rw [ndd_reverse]; exact ndd_dropWhile h)

theorem lowerChar_fixed {c : Char} (h : slugChar c = true ∨ c = '-') :
    lowerChar c = c := by
  rcases h with h | rfl
  · simp only [slugChar, Bool.or_eq_true, Bool.and_eq_true, decide_eq_true_eq] at h
    unfold lowerChar
    rw [if_neg (by omega)]
  · decide

theorem subAux_id : ∀ cs : List Char,
    (∀ c ∈ cs, slugChar c = true ∨ c = '-') → noDoubleDash cs = true →
    subAux false cs = cs ∧ (cs.head? ≠ some '-' → subAux true cs = cs) := by
  intro cs
  induction cs with
  | nil => exact fun _ _ => ⟨rfl, fun _ => rfl⟩
  | cons c t ih =>
    intro hall hndd
    have htail := ih (fun x hx => hall x (List.mem_cons_of_mem c hx)) (ndd_tail hndd)
    rcases hall c (List.mem_cons_self c t) with hsc | rfl
    · refine ⟨?_, fun _ => ?_⟩ <;>
      · unfold subAux
        rw [if_pos hsc,
          htail.1]
    · have hthead : t.head? ≠ some '-' := by
        intro hh
        rw [ndd_cons_eq, hh] at hndd
        simp at hndd
      refine ⟨?_, fun hh => ?_⟩
      · show subAux false ('-' :: t) = '-' :: t
        unfold subAux
        rw [if_neg (by decide), if_neg (by simp), htail.2 hthead]
      · exact (hh List.head?_cons).elim

theorem slugifyL_all (cs : List Char) :
    (slugifyL cs).all (fun c => slugChar c || c == '-') = true :=
  stripDashes_all (subAux_all false _)

theorem slugifyL_ndd (cs : List Char) : noDoubleDash (slugifyL cs) = true :=
  stripDashes_ndd (subAux_ndd false _)

theorem slugifyL_head (cs : List Char) : (slugifyL cs).head? ≠ some '-' :=
  stripDashes_head _

theorem slugifyL_getLast (cs : List Char) : (slugifyL cs).getLast? ≠ some '-' :=
  stripDashes_getLast _

theorem slugifyL_idem (cs : List Char) : slugifyL (slugifyL cs) = slugifyL cs := by
  have hall : ∀ c ∈ slugifyL cs, slugChar c = true ∨ c = '-' := by
    intro c hc
    have hx := List.all_eq_true.mp (slugifyL_all cs) c hc
    simpa only [Bool.or_eq_true, beq_iff_eq] using hx
  have hmap : (slugifyL cs).map lowerChar = slugifyL cs := by
    rw [List.map_congr_left (fun a ha => lowerChar_fixed (hall a ha))]
    exact List.map_id' _
  have hstrip : stripDashes (slugifyL cs) = slugifyL cs := by
    unfold stripDashes
    rw [dropWhile_dash_of_head (slugifyL_head cs),
      dropWhile_dash_of_head (by rw [List.head?_reverse]; exact slugifyL_getLast cs),
      List.reverse_reverse]
  calc slugifyL (slugifyL cs)
      = stripDashes (subAux false ((slugifyL cs).map lowerChar)) := rfl
    _ = stripDashes (subAux false (slugifyL cs)) := by rw [hmap]
    _ = stripDashes (slugifyL cs) := by
          rw [(subAux_id _ hall (slugifyL_ndd cs)).1]
    _ = slugifyL cs := hstrip

/-- **C8.** `slugify` is idempotent; for every input its output consists only
of characters in `[a-z0-9]` and hyphens (hence is entirely lowercase), with
no two consecutive hyphens and no leading or trailing hyphen; and concretely
`slugify("Cinematic & Moody!!") = "cinematic-moody"`. -/
theorem c8_slugify_contract :
    (∀ s, slugify (slugify s) = slugify s) ∧
    (∀ s, (slugify s).data.all (fun c => slugChar c || c == '-') = true) ∧
    (∀ s, noDoubleDash (slugify s).data = true) ∧
    (∀ s, ((slugify s).data.head? == some '-') = false ∧
          ((slugify s).data.getLast? == some '-') = false) ∧
    slugify "Cinematic & Moody!!" = "cinematic-moody" := by
  refine ⟨fun s => ?_, fun s => slugifyL_all s.data, fun s => slugifyL_ndd s.data,
    fun s => ⟨beq_eq_false_iff_ne.mpr (slugifyL_head s.data),
              beq_eq_false_iff_ne.mpr (slugifyL_getLast s.data)⟩, by decide⟩
  show (⟨slugifyL (slugifyL s.data)⟩ : String) = ⟨slugifyL s.data⟩
  rw [slugifyL_idem]

/-! ## Decimal rendering and parsing

`format2f` models the Python expression `f"{value:.2f}"`: fixed-point
rendering with exactly two fractional digits, rounding half to even exactly
as IEEE-754/CPython does (the Python value is a binary double, so a tie at
the second decimal place occurs exactly when the value is an odd multiple
of `1/200`, and such values are dyadic, hence represented exactly).
`parseDecL` models parsing the rendered text back as a float
(`float(...)`), exact on these short decimal strings. -/

def charVal (c : Char) : ℕ := c.toNat - 48

def natCharsAux : ℕ → ℕ → List Char → List Char
  | 0, _, acc => acc
  | fuel + 1, n, acc =>
    if n = 0 then acc else natCharsAux fuel (n / 10) (Nat.digitChar (n % 10) :: acc)

/-- Decimal rendering of a natural number, most significant digit first. -/
def natChars (n : ℕ) : List Char := if n = 0 then ['0'] else natCharsAux n n []

/-- The numeric value of a digit string (most significant digit first). -/
def ofDigitsChars (cs : List Char) : ℕ := Nat.ofDigits 10 (cs.reverse.map charVal)

/-- Round half to even (the rounding used by IEEE-754 and hence by CPython's
fixed-point float formatting). -/
def roundHalfEven (q : ℚ) : ℤ :=
  if q - ⌊q⌋ < 1/2 then ⌊q⌋
  else if q - ⌊q⌋ > 1/2 then ⌊q⌋ + 1
  else if ⌊q⌋ % 2 = 0 then ⌊q⌋ else ⌊q⌋ + 1

/-- `f"{v:.2f}"` as a character list. -/
def format2fL (v : ℚ) : List Char :=
  let n := roundHalfEven (100 * v)
  let m := n.natAbs
  (if n < 0 then ['-'] else []) ++
    natChars (m / 100) ++ '.' :: [Nat.digitChar (m / 10 % 10), Nat.digitChar (m % 10)]

def format2f (v : ℚ) : String := ⟨format2fL v⟩

/-- Parse an unsigned decimal numeral, optionally with a fractional part. -/
def parseUnsignedL (cs : List Char) : Option ℚ :=
  if (cs.takeWhile Char.isDigit).isEmpty then none
  else if (cs.dropWhile Char.isDigit).isEmpty then
    some (ofDigitsChars (cs.takeWhile Char.isDigit) : ℚ)
  else
    if (cs.dropWhile Char.isDigit).head? = some '.' ∧
        ((cs.dropWhile Char.isDigit).tail.isEmpty = false ∧
         (cs.dropWhile Char.isDigit).tail.all Char.isDigit = true) then
      some ((ofDigitsChars (cs.takeWhile Char.isDigit) : ℚ) +
        (ofDigitsChars (cs.dropWhile Char.isDigit).tail : ℚ) /
          10 ^ (cs.dropWhile Char.isDigit).tail.length)
    else none

/-- Parse a decimal numeral with an optional leading minus sign, as
`float(...)` does on the strings produced here. -/
def parseDecL (cs : List Char) : Option ℚ :=
  if cs.isEmpty then none
  else if cs.head? = some '-' then (parseUnsignedL cs.tail).map (fun q => -q)
  else parseUnsignedL cs

example : format2f (1/8) = "0.12" := by with_unfolding_all decide
example : format2f (-(1/8)) = "-0.12" := by with_unfolding_all decide
example : format2f 0 = "0.00" := by with_unfolding_all decide
example : format2f (7/4) = "1.75" := by with_unfolding_all decide
example : format2f (123 : ℚ) = "123.00" := by with_unfolding_all decide
example : parseDecL ("0.12".data) = some (12/100) := by with_unfolding_all decide
example : parseDecL ("-1.75".data) = some (-(7/4)) := by with_unfolding_all decide

/-! ## `generate_xmp_content` (`preset_generator.py`, lines 111-130)

The f-string encoder: one `<crs:Key>value</crs:Key>` line per setting
(value rendered with `:.2f`), the lines joined by `"\n".join`, and the
prompt interpolated verbatim — with no XML escaping — into the
`dc:description` element. -/

/-- One element of the `settings_xml` list comprehension
(`preset_generator.py`, lines 116-119). -/
def settingsLine (kv : String × ℚ) : String :=
  "    <crs:" ++ kv.1 ++ ">" ++ format2f kv.2 ++ "</crs:" ++ kv.1 ++ ">"

/-- Python's `"\n".join`. -/
def joinNL : List String → String
  | [] => ""
  | [s] => s
  | s :: rest => s ++ "\n" ++ joinNL rest

/-- The f-string text up to and including `<dc:description>` (the character
`﻿` is the byte-order mark embedded in the `begin` attribute of the
source's `<?xpacket?>` line). -/
def xmpContentPre : String :=
  "<?xpacket begin=\"﻿\" id=\"W5M0MpCehiHzreSzNTczkc9d\"?>\n<x:xmpmeta xmlns:x=\"adobe:ns:meta/\" x:xmptk=\"Adobe XMP Core 5.6-c140 79.160451, 2017/05/06-01:08:21\">\n<rdf:RDF xmlns:rdf=\"http://www.w3.org/1999/02/22-rdf-syntax-ns#\"\n         xmlns:crs=\"http://ns.adobe.com/camera-raw-settings/1.0/\">\n<rdf:Description rdf:about=\"\">\n<dc:description>"

/-- The f-string text after the interpolated prompt. -/
def xmpContentPost (settings : List (String × ℚ)) : String :=
  "</dc:description>\n" ++ joinNL (settings.map settingsLine) ++
    "\n</rdf:Description>\n</rdf:RDF>\n</x:xmpmeta>"

def generate_xmp_content (prompt : String) (settings : List (String × ℚ)) : String :=
  xmpContentPre ++ prompt ++ xmpContentPost settings

/-- `create_preset_from_prompt` (`preset_generator.py`, lines 132-143). -/
def create_preset_from_prompt (prompt : String) : String :=
  generate_xmp_content prompt (match_prompt_to_preset prompt)

/-! ### Correctness of the decimal rendering -/

theorem digitChar_isDigit {d : ℕ} (h : d < 10) : (Nat.digitChar d).isDigit = true := by
  interval_cases d <;> decide

theorem charVal_digitChar {d : ℕ} (h : d < 10) : charVal (Nat.digitChar d) = d := by
  interval_cases d <;> decide

theorem isDigit_ne_dash {c : Char} (h : c.isDigit = true) : c ≠ '-' := by
  intro hc; subst hc; exact absurd h (by decide)

theorem natCharsAux_spec :
    ∀ (fuel n : ℕ), n ≤ fuel → ∀ acc,
      natCharsAux fuel n acc = ((Nat.digits 10 n).map Nat.digitChar).reverse ++ acc := by
  intro fuel
  induction fuel with
  | zero =>
    intro n hn acc
    interval_cases n
    simp [natCharsAux]
  | succ fuel ih =>
    intro n hn acc
    by_cases h0 : n = 0
    · subst h0; simp [natCharsAux]
    · unfold natCharsAux
      rw [if_neg h0, ih (n / 10) (by omega),
        Nat.digits_def' (by norm_num : (1:ℕ) < 10) (Nat.pos_of_ne_zero h0)]
      simp [List.append_assoc]

theorem natChars_pos {n : ℕ} (h : n ≠ 0) :
    natChars n = ((Nat.digits 10 n).map Nat.digitChar).reverse := by
  unfold natChars
  rw [if_neg h, natCharsAux_spec n n le_rfl, List.append_nil]

theorem natChars_digits (n : ℕ) : ∀ c ∈ natChars n, c.isDigit = true := by
  by_cases h : n = 0
  · subst h; intro c hc; simp [natChars] at hc; subst hc; decide
  · rw [natChars_pos h]
    intro c hc
    rw [List.mem_reverse, List.mem_map] at hc
    obtain ⟨d, hd, rfl⟩ := hc
    exact digitChar_isDigit (Nat.digits_lt_base (by norm_num) hd)

theorem natChars_ne_nil (n : ℕ) : natChars n ≠ [] := by
  by_cases h : n = 0
  · subst h; decide
  · rw [natChars_pos h]
    simp only [ne_eq, List.reverse_eq_nil_iff, List.map_eq_nil_iff]
    exact Nat.digits_ne_nil_iff_ne_zero.mpr h

theorem ofDigitsChars_natChars (n : ℕ) : ofDigitsChars (natChars n) = n := by
  by_cases h : n = 0
  · subst h; decide
  · rw [natChars_pos h]
    unfold ofDigitsChars
    rw [List.reverse_reverse, List.map_map]
    have hmap : (Nat.digits 10 n).map (charVal ∘ Nat.digitChar) = Nat.digits 10 n :=
      (List.map_congr_left
        (fun d hd => charVal_digitChar (Nat.digits_lt_base (by norm_num) hd))).trans
        (List.map_id' _)
    rw [hmap, Nat.ofDigits_digits]

theorem takeWhile_append_not {p : Char → Bool} :
    ∀ {l : List Char}, (∀ c ∈ l, p c = true) → ∀ {x : Char} {r : List Char},
      p x = false →
      (l ++ x :: r).takeWhile p = l ∧ (l ++ x :: r).dropWhile p = x :: r := by
  intro l
  induction l with
  | nil =>
    intro _ x r hx
    constructor
    · rw [List.nil_append, List.takeWhile_cons, hx]
      simp
    · rw [List.nil_append, List.dropWhile_cons, hx]
      simp
  | cons c t ih =>
    intro hl x r hx
    have hc : p c = true := hl c (List.mem_cons_self c t)
    obtain ⟨h1, h2⟩ :=
      ih (fun a ha => hl a (List.mem_cons_of_mem c ha)) (x := x) (r := r) hx
    constructor
    · rw [List.cons_append, List.takeWhile_cons, hc]
      simp [h1]
    · rw [List.cons_append, List.dropWhile_cons, hc]
      simp [h2]

theorem ofDigitsChars_pair {a b : ℕ} (ha : a < 10) (hb : b < 10) :
    ofDigitsChars [Nat.digitChar a, Nat.digitChar b] = 10 * a + b := by
  unfold ofDigitsChars
  simp [Nat.ofDigits, charVal_digitChar ha, charVal_digitChar hb]
  ring

theorem parseUnsignedL_body (m : ℕ) :
    parseUnsignedL (natChars (m / 100) ++
        '.' :: [Nat.digitChar (m / 10 % 10), Nat.digitChar (m % 10)]) =
      some ((m : ℚ) / 100) := by
  obtain ⟨htake, hdrop⟩ :=
    takeWhile_append_not (natChars_digits (m / 100))
      (x := '.') (r := [Nat.digitChar (m / 10 % 10), Nat.digitChar (m % 10)])
      (by decide)
  unfold parseUnsignedL
  rw [htake, hdrop]
  rw [if_neg (by simpa using natChars_ne_nil (m / 100)), if_neg (by simp)]
  have hcond : (('.' :: [Nat.digitChar (m / 10 % 10), Nat.digitChar (m % 10)]).head?
        = some '.') ∧
      ((('.' :: [Nat.digitChar (m / 10 % 10), Nat.digitChar (m % 10)]).tail.isEmpty
        = false) ∧
       ('.' :: [Nat.digitChar (m / 10 % 10), Nat.digitChar (m % 10)]).tail.all
        Char.isDigit = true) := by
    refine ⟨rfl, rfl, ?_⟩
    simp [digitChar_isDigit (Nat.mod_lt _ (by norm_num) : m / 10 % 10 < 10),
      digitChar_isDigit (Nat.mod_lt _ (by norm_num) : m % 10 < 10)]
  rw [if_pos hcond]
  show some ((ofDigitsChars (natChars (m / 100)) : ℚ) +
    (ofDigitsChars [Nat.digitChar (m / 10 % 10), Nat.digitChar (m % 10)] : ℚ) / 10 ^ 2)
    = some ((m : ℚ) / 100)
  rw [ofDigitsChars_natChars,
    ofDigitsChars_pair (Nat.mod_lt _ (by norm_num)) (Nat.mod_lt _ (by norm_num))]
  have hm : 10 * (m / 10 % 10) + m % 10 = m % 100 := by omega
  have hsplit : 100 * (m / 100) + m % 100 = m := Nat.div_add_mod m 100
  rw [hm]
  congr 1
  have hQ : (m : ℚ) = 100 * ((m / 100 : ℕ) : ℚ) + ((m % 100 : ℕ) : ℚ) := by
    exact_mod_cast hsplit.symm
  rw [hQ]
  ring

theorem parse_format_int (n : ℤ) :
    parseDecL ((if n < 0 then ['-'] else []) ++
        natChars (n.natAbs / 100) ++
        '.' :: [Nat.digitChar (n.natAbs / 10 % 10), Nat.digitChar (n.natAbs % 10)]) =
      some ((n : ℚ) / 100) := by
  obtain ⟨c, t, hct⟩ := List.exists_cons_of_ne_nil (natChars_ne_nil (n.natAbs / 100))
  have hcdig : c.isDigit = true := by
    apply natChars_digits (n.natAbs / 100)
    rw [hct]; exact List.mem_cons_self c t
  by_cases hneg : n < 0
  · rw [if_pos hneg]
    show parseDecL ('-' :: (natChars (n.natAbs / 100) ++ _)) = _
    unfold parseDecL
    rw [if_neg (by simp), if_pos (by rw [List.head?_cons]), List.tail_cons,
      parseUnsignedL_body]
    have habs : ((n.natAbs : ℚ)) = -(n : ℚ) := by
      rw [Int.cast_natAbs, abs_of_neg (by exact_mod_cast hneg)]
      push_cast
      ring
    rw [Option.map_some', habs]
    congr 1
    ring
  · rw [if_neg hneg, List.nil_append]
    unfold parseDecL
    rw [hct, List.cons_append]
    rw [if_neg (by simp), if_neg (by
      rw [List.head?_cons]
      intro hcontra
      exact isDigit_ne_dash hcdig (Option.some.inj hcontra))]
    rw [← List.cons_append, ← hct, parseUnsignedL_body]
    have habs : ((n.natAbs : ℚ)) = (n : ℚ) := by
      rw [Int.cast_natAbs, abs_of_nonneg (by exact_mod_cast (not_lt.mp hneg))]
    rw [habs]

theorem parse_format2f (v : ℚ) :
    parseDecL (format2fL v) = some ((roundHalfEven (100 * v) : ℚ) / 100) :=
  parse_format_int (roundHalfEven (100 * v))

theorem roundHalfEven_intCast (z : ℤ) : roundHalfEven (z : ℚ) = z := by
  unfold roundHalfEven
  rw [Int.floor_intCast]
  norm_num

theorem parse_format2f_exact_iff (v : ℚ) :
    parseDecL (format2fL v) = some v ↔ (100 * v).den = 1 := by
  rw [parse_format2f]
  constructor
  · intro h
    have hv : ((roundHalfEven (100 * v) : ℚ) / 100) = v := Option.some.inj h
    have h100 : (100 * v) = ((roundHalfEven (100 * v) : ℤ) : ℚ) := by
      field_simp at hv
      linarith
    rw [h100, Rat.den_intCast]
  · intro h
    have hnum : (((100 * v).num : ℤ) : ℚ) = 100 * v := by
      have hd := Rat.num_div_den (100 * v)
      rw [h] at hd
      simpa using hd
    have hre : roundHalfEven (100 * v) = (100 * v).num := by
      conv_lhs => rw [← hnum]
      exact roundHalfEven_intCast _
    rw [hre]
    congr 1
    rw [hnum]
    ring

/-- Counterexample to **C2**: embedding `Exposure = 0.125` — a perfectly
valid parameter value, exactly representable as a binary float — through the
`:.2f` formatting of `generate_xmp_content` produces the text `0.12` (CPython
rounds the tie half-to-even, as `format2fL` does), which parses back to
`3/25 = 0.12 ≠ 0.125`; the error is `1/200 = 0.005`, far beyond any
floating-point tolerance. -/
theorem c2_counterexample :
    settingsLine ("Exposure", 1/8) = "    <crs:Exposure>0.12</crs:Exposure>" ∧
    parseDecL (format2fL (1/8)) = some (3/25) ∧
    (3/25 : ℚ) ≠ 1/8 ∧ (1/8 : ℚ) - 3/25 = 1/200 := by
  refine ⟨?_, ?_, ?_, ?_⟩ <;> with_unfolding_all decide

/-- **C2 (amended).**  The numeric value embedded by `generate_xmp_content`
for a parameter, parsed back from the output as a float, equals the original
value rounded half-to-even to two decimal places; in particular the
round-trip is exact if and only if the original value is an integer multiple
of `0.01` (`create_xmp_file`, by contrast, embeds `str(value)`, which is not
subject to this rounding). -/
theorem c2_amended_two_decimal_round_trip :
    (∀ v : ℚ, parseDecL (format2fL v) = some ((roundHalfEven (100 * v) : ℚ) / 100)) ∧
    (∀ v : ℚ, parseDecL (format2fL v) = some v ↔ (100 * v).den = 1) :=
  ⟨parse_format2f, parse_format2f_exact_iff⟩

/-! ## Unescaped interpolation (C10) -/

theorem data_append (a b : String) : (a ++ b).data = a.data ++ b.data := rfl

/-- A character allowed between `&` and `;` in an entity or character
reference (over-approximated: any alphanumeric character or `#`). -/
def ampNameChar (c : Char) : Bool := c.isAlphanum || c = '#'

/-- `ampRefOk cs` over-approximates "`cs` begins with the body of a legal
entity or character reference followed by `;`".  In a document with no DTD,
every `&` of well-formed XML must begin `&amp;`, `&lt;`, `&gt;`, `&quot;`,
`&apos;` or a character reference `&#...;`, and all of these satisfy this
predicate, so `ampersandsOk = false` implies the text is not well-formed
XML. -/
def ampRefOk (cs : List Char) : Bool :=
  !(cs.takeWhile ampNameChar).isEmpty && ((cs.dropWhile ampNameChar).head? == some ';')

/-- Every `&` in the character list is followed by a plausible reference. -/
def ampersandsOk : List Char → Bool
  | [] => true
  | c :: t => (if c = '&' then ampRefOk t else true) && ampersandsOk t

set_option maxRecDepth 4000 in
/-- **C10.** `generate_xmp_content` interpolates the prompt verbatim — with
no XML escaping — into the `dc:description` element: the output decomposes
as a fixed prefix ending in `<dc:description>`, then the prompt character
for character, then the settings-dependent suffix.  Consequently a prompt
containing markup characters breaks well-formedness: with the prompt
`"tom & jerry"` the output violates the XML requirement that every `&`
begin an entity or character reference, while the surrounding document
without the prompt satisfies it. -/
theorem c10_verbatim_interpolation :
    (∀ prompt settings, (generate_xmp_content prompt settings).data =
      xmpContentPre.data ++ prompt.data ++ (xmpContentPost settings).data) ∧
    ampersandsOk (generate_xmp_content "tom & jerry" coreDefaults).data = false ∧
    ampersandsOk (xmpContentPre.data ++ (xmpContentPost coreDefaults).data) = true := by
  refine ⟨fun prompt settings => ?_, ?_, ?_⟩
  · simp [generate_xmp_content, data_append, List.append_assoc]
  · with_unfolding_all decide
  · with_unfolding_all decide

/-! ## `create_xmp_file` (`main.py`, lines 306-356)

The `ElementTree`-based attribute encoder.  The element tree it builds is
modelled by `XmlNode`; the `str(uuid.uuid4())` value is passed in as a
parameter to keep the function pure, and writing the file to disk is
omitted (the function returns the document value instead of the path).

The source reads nine parameters with `basic[k]` — raising `KeyError` when
absent — but reads `Whites` and `Blacks` with `basic.get(k, 0)`, which
defaults to `0`.  Its final `minidom.parseString(ET.tostring(root))`
re-parse fails with an `ExpatError` exactly when some attribute value
contains a character that `ElementTree` writes raw but XML forbids: a
control character other than tab, newline or carriage return
(`ElementTree._escape_attrib` escapes `&`, `<`, `>`, `"` and tab/LF/CR). -/

inductive XmlNode where
  | elem (tag : String) (attrs : List (String × String)) (children : List XmlNode)

/-- The `KeyError`/`ExpatError` payload of a failed encoding, if any. -/
def encodingError : Except String XmlNode → Option String
  | .error e => some e
  | .ok _ => none

def XmlNode.tag : XmlNode → String
  | .elem t _ _ => t

def XmlNode.attrs : XmlNode → List (String × String)
  | .elem _ a _ => a

def XmlNode.children : XmlNode → List XmlNode
  | .elem _ _ c => c

/-- A character that may appear in a serialized attribute value: XML forbids
the control characters below `U+0020` except tab, LF and CR (which
`ElementTree` escapes as character references). -/
def xmlSafeChar (c : Char) : Bool :=
  decide (32 ≤ c.toNat) || c == '\t' || c == '\n' || c == '\r'

def xmlSafeStr (s : String) : Bool := s.data.all xmlSafeChar

/-- A character of an XML name (over-approximation sufficient for the fixed
tag and attribute names used here). -/
def xmlNameChar (c : Char) : Bool :=
  c.isAlpha || c.isDigit || c == '-' || c == '_' || c == '.' || c == ':'

def xmlNameStart (c : Char) : Bool := c.isAlpha || c == '_' || c == ':'

def xmlName (s : String) : Bool :=
  match s.data with
  | [] => false
  | c :: t => xmlNameStart c && t.all xmlNameChar

/-- Structural well-formedness of an XML element tree: valid tag and
attribute names, pairwise distinct attribute names, and attribute values
free of characters that survive serialization but are illegal in XML.
Together with the serializer's escaping of `&`, `<`, `>` and `"` this is
what "the serialized document is well-formed XML" comes to. -/
inductive WellFormedXml : XmlNode → Prop where
  | elem {t : String} {attrs : List (String × String)} {cs : List XmlNode} :
      xmlName t = true →
      (∀ a ∈ attrs, xmlName a.1 = true ∧ xmlSafeStr a.2 = true) →
      (attrs.map Prod.fst).Nodup →
      (∀ c ∈ cs, WellFormedXml c) →
      WellFormedXml (.elem t attrs cs)

/-- Zero-padded rendering of the `k` fractional digits of `m`. -/
def fracChars (m k : ℕ) : List Char :=
  List.replicate (k - (natChars m).length) '0' ++ natChars m

/-- The least exponent `k ≤ 39` with `den ∣ 10 ^ k`, if any. -/
def pow10Exp (den : ℕ) : Option ℕ :=
  (List.range 40).find? (fun k => decide (den ∣ 10 ^ k))

/-- Python `str(value)` for the numeric values of the preset dictionary:
the exact decimal expansion with the least number of fractional digits
(Python prints the shortest decimal that round-trips, which for the dyadic
rationals denoted by floats is exactly this).  Integers are rendered with
no fractional part — the rational model collapses Python's `int`/`float`
distinction (`str(15)` vs `str(15.0)`), which no claim depends on.  The
`/`-fallback is unreachable on values denoting floats. -/
def pyStrL (v : ℚ) : List Char :=
  match pow10Exp v.den with
  | some 0 => (if v.num < 0 then ['-'] else []) ++ natChars v.num.natAbs
  | some (k + 1) =>
    let m := v.num.natAbs * (10 ^ (k + 1) / v.den)
    (if v.num < 0 then ['-'] else []) ++
      natChars (m / 10 ^ (k + 1)) ++ '.' :: fracChars (m % 10 ^ (k + 1)) (k + 1)
  | none => natChars v.num.natAbs ++ '/' :: natChars v.den

def pyStr (v : ℚ) : String := ⟨pyStrL v⟩

example : pyStr (1/2) = "0.5" := by with_unfolding_all decide
example : pyStr (-(1/2)) = "-0.5" := by with_unfolding_all decide
example : pyStr 15 = "15" := by with_unfolding_all decide
example : pyStr 0 = "0" := by with_unfolding_all decide
example : pyStr (-0.1) = "-0.1" := by with_unfolding_all decide

/-- `basic[k]`: `.ok` the value, or the `KeyError` key when absent. -/
def lookupReq (basic : List (String × ℚ)) (k : String) : Except String ℚ :=
  match basic.lookup k with
  | some v => .ok v
  | none => .error k

def xmpRootAttrs : List (String × String) :=
  [("xmlns:x", "adobe:ns:meta/"),
   ("x:xmptk", "Adobe XMP Core 5.6-c140 79.160451, 2017/05/06-01:08:21")]

def xmpRdfAttrs : List (String × String) :=
  [("xmlns:rdf", "http://www.w3.org/1999/02/22-rdf-syntax-ns#"),
   ("xmlns:crs", "http://ns.adobe.com/camera-raw-settings/1.0/")]

/-- The attribute list of the `rdf:Description` element: the fixed preset
metadata (`main.py`, lines 321-332) followed by the eleven numeric
parameters under Lightroom's mandated names (lines 334-346). -/
def descAttrsFull (xmp_filename uuidStr : String)
    (e c h s w b cl vb sa te ti : ℚ) : List (String × String) :=
  [("rdf:about", ""), ("crs:PresetType", "Normal"), ("crs:Cluster", ""),
   ("crs:UUID", uuidStr), ("crs:SupportsAmount", "False"),
   ("crs:RequiresRGBTables", "False"), ("crs:Group", "User Presets"),
   ("crs:Name", "Preset_" ++ xmp_filename), ("crs:Version", "13.0"),
   ("crs:ProcessVersion", "11.0"),
   ("crs:Exposure2012", pyStr e), ("crs:Contrast2012", pyStr c),
   ("crs:Highlights2012", pyStr h), ("crs:Shadows2012", pyStr s),
   ("crs:Whites2012", pyStr w), ("crs:Blacks2012", pyStr b),
   ("crs:Clarity2012", pyStr cl), ("crs:Vibrance", pyStr vb),
   ("crs:Saturation", pyStr sa), ("crs:Temperature", pyStr te),
   ("crs:Tint", pyStr ti)]

/-- `create_xmp_file` (`main.py`, lines 306-356), returning the document. -/
def create_xmp_file (basic : List (String × ℚ)) (xmp_filename uuidStr : String) :
    Except String XmlNode := do
  let e ← lookupReq basic "Exposure"
  let c ← lookupReq basic "Contrast"
  let h ← lookupReq basic "Highlights"
  let s ← lookupReq basic "Shadows"
  let w := lookupD basic "Whites"
  let b := lookupD basic "Blacks"
  let cl ← lookupReq basic "Clarity"
  let vb ← lookupReq basic "Vibrance"
  let sa ← lookupReq basic "Saturation"
  let te ← lookupReq basic "Temperature"
  let ti ← lookupReq basic "Tint"
  let descAttrs := descAttrsFull xmp_filename uuidStr e c h s w b cl vb sa te ti
  if (xmpRootAttrs ++ xmpRdfAttrs ++ descAttrs).all (fun a => xmlSafeStr a.2) then
    return XmlNode.elem "x:xmpmeta" xmpRootAttrs
      [XmlNode.elem "rdf:RDF" xmpRdfAttrs
        [XmlNode.elem "rdf:Description" descAttrs []]]
  else throw "ExpatError"

/-- The nine core parameters read with a bare subscript (no default). -/
def requiredKeys : List String :=
  ["Exposure", "Contrast", "Highlights", "Shadows", "Clarity", "Vibrance",
   "Saturation", "Temperature", "Tint"]

example :
    (create_xmp_file coreDefaults "test.xmp" "u-1").isOk = true := by
  with_unfolding_all decide
example :
    encodingError (create_xmp_file [] "test.xmp" "u-1") = some "Exposure" := by
  with_unfolding_all decide

/-! ### Lemmas about the attribute encoder -/

theorem except_bind_ok {α β : Type} (a : α) (f : α → Except String β) :
    (Except.ok a >>= f) = f a := rfl

theorem except_bind_error {α β : Type} (e : String) (f : α → Except String β) :
    ((Except.error e : Except String α) >>= f) = Except.error e := rfl

theorem except_pure {α : Type} (a : α) : (pure a : Except String α) = Except.ok a := rfl

theorem except_throw {α : Type} (e : String) :
    (throw e : Except String α) = Except.error e := rfl

theorem digitChar_xmlSafe {d : ℕ} (h : d < 10) :
    xmlSafeChar (Nat.digitChar d) = true := by
  interval_cases d <;> decide

theorem natChars_safe (n : ℕ) : ∀ c ∈ natChars n, xmlSafeChar c = true := by
  by_cases h : n = 0
  · subst h; intro c hc; simp [natChars] at hc; subst hc; decide
  · rw [natChars_pos h]
    intro c hc
    rw [List.mem_reverse, List.mem_map] at hc
    obtain ⟨d, hd, rfl⟩ := hc
    exact digitChar_xmlSafe (Nat.digits_lt_base (by norm_num) hd)

theorem mem_if_dash {c : Char} {P : Prop} [Decidable P]
    (h : c ∈ (if P then ['-'] else ([] : List Char))) : c = '-' := by
  by_cases hp : P
  · rw [if_pos hp] at h; simpa using h
  · rw [if_neg hp] at h; simp at h

theorem fracChars_safe (m k : ℕ) : ∀ c ∈ fracChars m k, xmlSafeChar c = true := by
  intro c hc
  unfold fracChars at hc
  rw [List.mem_append] at hc
  rcases hc with h | h
  · rw [List.eq_of_mem_replicate h]; decide
  · exact natChars_safe m c h

theorem pyStrL_safe (v : ℚ) : ∀ c ∈ pyStrL v, xmlSafeChar c = true := by
  intro c hc
  rcases hp : pow10Exp v.den with _ | k
  · simp only [pyStrL, hp, List.mem_append, List.mem_cons] at hc
    rcases hc with h | h | h
    · exact natChars_safe _ c h
    · subst h; decide
    · exact natChars_safe _ c h
  · cases k with
    | zero =>
      simp only [pyStrL, hp, List.mem_append] at hc
      rcases hc with h | h
      · rw [mem_if_dash h]; decide
      · exact natChars_safe _ c h
    | succ k =>
      simp only [pyStrL, hp, List.mem_append, List.mem_cons] at hc
      rcases hc with (h | h) | h | h
      · rw [mem_if_dash h]; decide
      · exact natChars_safe _ c h
      · subst h; decide
      · exact fracChars_safe _ _ c h

theorem pyStr_safe (v : ℚ) : xmlSafeStr (pyStr v) = true :=
  List.all_eq_true.mpr (pyStrL_safe v)

theorem xmlSafeStr_append (a b : String) :
    xmlSafeStr (a ++ b) = (xmlSafeStr a && xmlSafeStr b) := by
  simp [xmlSafeStr, data_append]

theorem allSafe (fn uuid : String) (e c h s w b cl vb sa te ti : ℚ)
    (hf : xmlSafeStr fn = true) (hu : xmlSafeStr uuid = true) :
    (xmpRootAttrs ++ xmpRdfAttrs ++
      descAttrsFull fn uuid e c h s w b cl vb sa te ti).all
        (fun a => xmlSafeStr a.2) = true := by
  simp only [xmpRootAttrs, xmpRdfAttrs, descAttrsFull, List.append_assoc,
    List.all_append, List.all_cons, List.all_nil, Bool.and_eq_true,
    Bool.and_true, and_true]
  repeat' apply And.intro
  all_goals
    first
      | decide
      | exact hu
      | exact pyStr_safe _
      | (rw [xmlSafeStr_append, hf]; decide)

/-- **C9 (amended).** For display names and identifiers free of forbidden
control characters, the encoder fails exactly when one of the *nine*
parameters read with a bare subscript (`Exposure`, `Contrast`,
`Highlights`, `Shadows`, `Clarity`, `Vibrance`, `Saturation`,
`Temperature`, `Tint`) is absent from the input — `Whites` and `Blacks`
are read with `.get(k, 0)` and silently default to `0` when absent.  The
failure is the propagated `KeyError` (no `EncodingError` type exists), and
on failure no document is returned (the result is the error alone). -/
theorem c9_amended_nine_keys (basic : List (String × ℚ)) (fn uuid : String)
    (hf : xmlSafeStr fn = true) (hu : xmlSafeStr uuid = true) :
    (create_xmp_file basic fn uuid).isOk =
      requiredKeys.all (fun k => (basic.lookup k).isSome) := by
  rcases h1 : basic.lookup "Exposure" with _ | v1
  · simp [create_xmp_file, lookupReq, requiredKeys, h1, except_bind_error,
      Except.isOk, Except.toBool]
  rcases h2 : basic.lookup "Contrast" with _ | v2
  · simp [create_xmp_file, lookupReq, requiredKeys, h1, h2, except_bind_ok,
      except_bind_error, Except.isOk, Except.toBool]
  rcases h3 : basic.lookup "Highlights" with _ | v3
  · simp [create_xmp_file, lookupReq, requiredKeys, h1, h2, h3, except_bind_ok,
      except_bind_error, Except.isOk, Except.toBool]
  rcases h4 : basic.lookup "Shadows" with _ | v4
  · simp [create_xmp_file, lookupReq, requiredKeys, h1, h2, h3, h4,
      except_bind_ok, except_bind_error, Except.isOk, Except.toBool]
  rcases h5 : basic.lookup "Clarity" with _ | v5
  · simp [create_xmp_file, lookupReq, requiredKeys, h1, h2, h3, h4, h5,
      except_bind_ok, except_bind_error, Except.isOk, Except.toBool]
  rcases h6 : basic.lookup "Vibrance" with _ | v6
  · simp [create_xmp_file, lookupReq, requiredKeys, h1, h2, h3, h4, h5, h6,
      except_bind_ok, except_bind_error, Except.isOk, Except.toBool]
  rcases h7 : basic.lookup "Saturation" with _ | v7
  · simp [create_xmp_file, lookupReq, requiredKeys, h1, h2, h3, h4, h5, h6, h7,
      except_bind_ok, except_bind_error, Except.isOk, Except.toBool]
  rcases h8 : basic.lookup "Temperature" with _ | v8
  · simp [create_xmp_file, lookupReq, requiredKeys, h1, h2, h3, h4, h5, h6, h7,
      h8, except_bind_ok, except_bind_error, Except.isOk, Except.toBool]
  rcases h9 : basic.lookup "Tint" with _ | v9
  · simp [create_xmp_file, lookupReq, requiredKeys, h1, h2, h3, h4, h5, h6, h7,
      h8, h9, except_bind_ok, except_bind_error, Except.isOk, Except.toBool]
  have hsafe := allSafe fn uuid v1 v2 v3 v4 (lookupD basic "Whites")
    (lookupD basic "Blacks") v5 v6 v7 v8 v9 hf hu
  simp [create_xmp_file, lookupReq, requiredKeys, h1, h2, h3, h4, h5, h6, h7,
    h8, h9, except_bind_ok, except_pure, hsafe, Except.isOk, Except.toBool]
  rw [if_pos hsafe]

/-- Closed instance of the amended C9 at a complete parameter set. -/
theorem c9_amended_nine_keys_witness :
    (create_xmp_file coreDefaults "sunset.xmp" "u-2").isOk =
      requiredKeys.all (fun k => (coreDefaults.lookup k).isSome) :=
  c9_amended_nine_keys coreDefaults "sunset.xmp" "u-2" (by decide) (by decide)

/-- The eleven-key parameter set with `Whites` removed. -/
def basicNoWhites : List (String × ℚ) :=
  [("Exposure", 0), ("Contrast", 0), ("Highlights", 0), ("Shadows", 0),
   ("Blacks", 0), ("Clarity", 0), ("Vibrance", 0), ("Saturation", 0),
   ("Temperature", 0), ("Tint", 0)]

/-- Counterexample to **C9**: `Whites` — one of the eleven required
parameters of a valid StyleParameters value — is absent from the input,
yet the encoder succeeds (with `crs:Whites2012` defaulted to `0`) instead
of failing. -/
theorem c9_counterexample :
    basicNoWhites.lookup "Whites" = none ∧
    (create_xmp_file basicNoWhites "preset.xmp" "u-3").isOk = true := by
  refine ⟨?_, ?_⟩ <;> with_unfolding_all decide

/-- The eleven mandated attribute names of the numeric parameters. -/
def crsParamNames : List String :=
  ["crs:Exposure2012", "crs:Contrast2012", "crs:Highlights2012",
   "crs:Shadows2012", "crs:Whites2012", "crs:Blacks2012", "crs:Clarity2012",
   "crs:Vibrance", "crs:Saturation", "crs:Temperature", "crs:Tint"]

/-- **C1.** For every valid StyleParameters value — all eleven core
parameters present, the all-zero default included — and any display name
and identifier free of forbidden control characters, the attribute encoder
succeeds and produces a well-formed document whose root declares
`xmlns:x = adobe:ns:meta/`, whose `rdf:RDF` child declares `xmlns:rdf` and
`xmlns:crs` with the required URIs, and whose description node carries all
eleven numeric parameters under the mandated attribute names. -/
theorem c1_encoder_wellformed (basic : List (String × ℚ)) (fn uuid : String)
    (h11 : ∀ k ∈ coreKeys, (basic.lookup k).isSome = true)
    (hf : xmlSafeStr fn = true) (hu : xmlSafeStr uuid = true) :
    ∃ doc, create_xmp_file basic fn uuid = .ok doc ∧ WellFormedXml doc ∧
      doc.attrs.lookup "xmlns:x" = some "adobe:ns:meta/" ∧
      ∃ rdf ∈ doc.children,
        rdf.attrs.lookup "xmlns:rdf"
          = some "http://www.w3.org/1999/02/22-rdf-syntax-ns#" ∧
        rdf.attrs.lookup "xmlns:crs"
          = some "http://ns.adobe.com/camera-raw-settings/1.0/" ∧
        ∃ desc ∈ rdf.children,
          ∀ a ∈ crsParamNames, (desc.attrs.lookup a).isSome = true := by
  obtain ⟨v1, h1⟩ := Option.isSome_iff_exists.mp
    (h11 "Exposure" (by with_unfolding_all decide))
  obtain ⟨v2, h2⟩ := Option.isSome_iff_exists.mp
    (h11 "Contrast" (by with_unfolding_all decide))
  obtain ⟨v3, h3⟩ := Option.isSome_iff_exists.mp
    (h11 "Highlights" (by with_unfolding_all decide))
  obtain ⟨v4, h4⟩ := Option.isSome_iff_exists.mp
    (h11 "Shadows" (by with_unfolding_all decide))
  obtain ⟨v5, h5⟩ := Option.isSome_iff_exists.mp
    (h11 "Clarity" (by with_unfolding_all decide))
  obtain ⟨v6, h6⟩ := Option.isSome_iff_exists.mp
    (h11 "Vibrance" (by with_unfolding_all decide))
  obtain ⟨v7, h7⟩ := Option.isSome_iff_exists.mp
    (h11 "Saturation" (by with_unfolding_all decide))
  obtain ⟨v8, h8⟩ := Option.isSome_iff_exists.mp
    (h11 "Temperature" (by with_unfolding_all decide))
  obtain ⟨v9, h9⟩ := Option.isSome_iff_exists.mp
    (h11 "Tint" (by with_unfolding_all decide))
  have hsafe := allSafe fn uuid v1 v2 v3 v4 (lookupD basic "Whites")
    (lookupD basic "Blacks") v5 v6 v7 v8 v9 hf hu
  refine ⟨XmlNode.elem "x:xmpmeta" xmpRootAttrs
      [XmlNode.elem "rdf:RDF" xmpRdfAttrs
        [XmlNode.elem "rdf:Description"
          (descAttrsFull fn uuid v1 v2 v3 v4 (lookupD basic "Whites")
            (lookupD basic "Blacks") v5 v6 v7 v8 v9) []]],
    ?_, ?_, ?_, ?_⟩
  · simp only [create_xmp_file, lookupReq, h1, h2, h3, h4, h5, h6, h7, h8, h9,
      except_bind_ok]
    rw [if_pos hsafe]
    rfl
  · refine WellFormedXml.elem (by decide) ?_ (by decide) ?_
    · intro a ha
      fin_cases ha <;> exact ⟨by decide, by decide⟩
    · intro ch hch
      fin_cases hch
      refine WellFormedXml.elem (by decide) ?_ (by decide) ?_
      · intro a ha
        fin_cases ha <;> exact ⟨by decide, by decide⟩
      · intro ch2 hch2
        fin_cases hch2
        refine WellFormedXml.elem (by decide) ?_ ?_ ?_
        · intro a ha
          simp only [descAttrsFull] at ha
          fin_cases ha <;>
            first
              | exact ⟨of_decide_eq_true rfl, of_decide_eq_true rfl⟩
              | exact ⟨of_decide_eq_true rfl, hu⟩
              | exact ⟨of_decide_eq_true rfl, by
                  show xmlSafeStr ("Preset_" ++ fn) = true
                  rw [xmlSafeStr_append, hf]
                  decide⟩
              | exact ⟨of_decide_eq_true rfl, pyStr_safe _⟩
        · exact of_decide_eq_true rfl
        · intro x hx
          exact absurd hx (List.not_mem_nil x)
  · rfl
  · refine ⟨_, List.mem_cons_self _ _, rfl, rfl, _,
      List.mem_cons_self _ _, ?_⟩
    intro a ha
    fin_cases ha <;> rfl

/-- Closed instance of C1 at the all-zero default parameters. -/
theorem c1_encoder_wellformed_witness :
    ∃ doc, create_xmp_file coreDefaults "default.xmp" "u-4" = .ok doc ∧
      WellFormedXml doc ∧
      doc.attrs.lookup "xmlns:x" = some "adobe:ns:meta/" ∧
      ∃ rdf ∈ doc.children,
        rdf.attrs.lookup "xmlns:rdf"
          = some "http://www.w3.org/1999/02/22-rdf-syntax-ns#" ∧
        rdf.attrs.lookup "xmlns:crs"
          = some "http://ns.adobe.com/camera-raw-settings/1.0/" ∧
        ∃ desc ∈ rdf.children,
          ∀ a ∈ crsParamNames, (desc.attrs.lookup a).isSome = true :=
  c1_encoder_wellformed coreDefaults "default.xmp" "u-4"
    (by with_unfolding_all decide) (by decide) (by decide)

end LightEdit
